import Mathlib

/-!
Shallow embedding of the environment discovery and deletion engine of
`env_manager.py` (scanners, discovery orchestrator, safety guard and
deletion executor), together with theorems settling the specification
claims about it.

Filesystem and process effects are modelled by a `Sys` record of total
query functions: `isDir`/`fileExists` answer the `Path.is_dir` /
`Path.exists` probes, `listDir` gives the iteration order of
`Path.iterdir`, `resolve` models `Path.resolve().as_posix()` (with `none`
standing for the `OSError`/`RuntimeError` cases the code catches), and the
Conda CLI is modelled by `condaWhich` (`shutil.which("conda")`) and
`condaEnvList` (`none` = the CLI invocation raised: non-zero exit or
malformed JSON; `some ps` = the parsed `envs` list).
-/

/-- The `Environment` dataclass: name, type tag and path of one
discovered environment. -/
structure Environment where
  name : String
  env_type : String
  path : String
deriving DecidableEq, Repr

/-- Ambient system state: filesystem queries, path resolution, the
process environment and the external Conda CLI. -/
structure Sys where
  isDir : String → Bool
  fileExists : String → Bool
  listDir : String → List String
  resolve : String → Option String
  home : String
  cwd : String
  sysExecutable : String
  condaWhich : Option String
  condaEnvList : Option (List String)
  condaRemoveErr : String → Option String
  rmtreeErr : String → Option String

/-- Path join, as `base / entry` on POSIX `pathlib` paths. -/
def pathJoin (a b : String) : String := a ++ "/" ++ b

/-- Split a character list at every `'/'`. -/
def splitSlash : List Char → List (List Char)
  | [] => [[]]
  | c :: cs =>
    if c == '/' then [] :: splitSlash cs
    else
      match splitSlash cs with
      | [] => [[c]]
      | g :: gs => (c :: g) :: gs

/-- Components of a POSIX path (empty segments dropped, as `pathlib`
normalises them away). -/
def pathComponents (p : String) : List String :=
  ((splitSlash p.toList).filter (fun g => !g.isEmpty)).map (fun g => ⟨g⟩)

/-- Python's `s.startswith(pre)`. -/
def strStarts (s pre : String) : Bool :=
  pre.toList.isPrefixOf s.toList

/-- Python's `s.lower()` (ASCII letters, which covers the names the
code compares). -/
def strLower (s : String) : String :=
  ⟨s.toList.map Char.toLower⟩

/-- `Path(p).name`: the final nonempty path component. -/
def pathName (p : String) : String :=
  (pathComponents p).getLastD ""

/-- Auxiliary: does `pat` occur as a contiguous sublist of `l`? -/
def subOccurs (pat : List Char) : List Char → Bool
  | [] => pat == []
  | c :: cs => pat.isPrefixOf (c :: cs) || subOccurs pat cs

/-- Python's substring test `pat in s`. -/
def strContains (s pat : String) : Bool :=
  subOccurs pat.toList s.toList

/-- `a` is an ancestor of `b` as directories: the components of `a` are
an initial segment of the components of `b`. -/
def isAncestorOf (a b : String) : Bool :=
  (pathComponents a).isPrefixOf (pathComponents b)

/-- The base directories probed by `scan_venv_dirs`. -/
def venvBases (sys : Sys) : List String :=
  [ pathJoin sys.home ".virtualenvs",
    pathJoin (pathJoin (pathJoin sys.home ".cache") "pypoetry") "virtualenvs",
    pathJoin (pathJoin (pathJoin sys.home ".local") "share") "virtualenvs" ]

/-- The per-entry type tag of `scan_venv_dirs`:
`"Poetry" if "pypoetry" in str(base) else "Pipenv" if "local" in str(base) else "venv"`. -/
def baseEtype (base : String) : String :=
  if strContains base "pypoetry" then "Poetry"
  else if strContains base "local" then "Pipenv"
  else "venv"

/-- The loop body of `scan_venv_dirs` over one base directory's entries.
A `resolve` failure is the exception the per-base `try` catches: the
entries collected so far are kept and the rest of this base is skipped. -/
def scanVenvEntries (sys : Sys) (base : String) : List String → List Environment
  | [] => []
  | e :: es =>
    let entry := pathJoin base e
    if sys.isDir entry && sys.fileExists (pathJoin entry "pyvenv.cfg") then
      match sys.resolve entry with
      | some r => { name := e, env_type := baseEtype base, path := r } :: scanVenvEntries sys base es
      | none => []
    else scanVenvEntries sys base es

/-- `scan_venv_dirs`: probe the three venv-family base directories. -/
def scan_venv_dirs (sys : Sys) : List Environment :=
  ((venvBases sys).map (fun base =>
    if sys.isDir base then scanVenvEntries sys base (sys.listDir base) else [])).flatten

/-- The three well-known Conda installation directories of the manual
fallback scan. -/
def condaKnownDirs (sys : Sys) : List String :=
  [ pathJoin (pathJoin sys.home "miniconda3") "envs",
    pathJoin (pathJoin sys.home "anaconda3") "envs",
    pathJoin (pathJoin sys.home ".conda") "envs" ]

/-- The loop body of the manual Conda scan over one base directory's
entries; a `resolve` failure is caught per base as in `scanVenvEntries`. -/
def scanCondaEntries (sys : Sys) (base : String) : List String → List Environment
  | [] => []
  | e :: es =>
    let envDir := pathJoin base e
    if sys.isDir envDir then
      if sys.isDir (pathJoin envDir "conda-meta") || sys.fileExists (pathJoin (pathJoin envDir "bin") "python") then
        match sys.resolve envDir with
        | some r => { name := e, env_type := "Conda", path := r } :: scanCondaEntries sys base es
        | none => []
      else scanCondaEntries sys base es
    else scanCondaEntries sys base es

/-- The `else` branch of `scan_conda_envs`: the directory-based manual
scan of the three known Conda installation directories. -/
def condaManualScan (sys : Sys) : List Environment :=
  ((condaKnownDirs sys).map (fun base =>
    if sys.isDir base then scanCondaEntries sys base (sys.listDir base) else [])).flatten

/-- `scan_conda_envs`: if `shutil.which("conda")` finds the CLI, list
environments from its JSON output (a failing invocation is caught and
leaves `envs` empty); only when the CLI is absent does the manual
directory scan run. -/
def scan_conda_envs (sys : Sys) : List Environment :=
  match sys.condaWhich with
  | some _ =>
    match sys.condaEnvList with
    | some paths => paths.map (fun p => { name := pathName p, env_type := "Conda", path := p })
    | none => []
  | none => condaManualScan sys

/-- `scan_current_dir_venv`: check the current working directory for an
in-project `.venv`. Its body has no `try`, so a `resolve` failure
propagates as an exception (here: `Except.error`). -/
def scan_current_dir_venv (sys : Sys) : Except String (List Environment) :=
  let potential := pathJoin sys.cwd ".venv"
  if sys.isDir potential && sys.fileExists (pathJoin potential "pyvenv.cfg") then
    match sys.resolve potential with
    | some r => Except.ok [{ name := pathName sys.cwd, env_type := "venv (local)", path := r }]
    | none => Except.error "resolve failed"
  else Except.ok []

/-- The list a scanner outcome contributes to the merged result: its
records on success, nothing on failure. -/
def okList (r : Except String (List Environment)) : List Environment :=
  match r with
  | Except.ok l => l
  | Except.error _ => []

/-- The log line a scanner outcome contributes: the orchestrator prints
`"Error in scanning: ..."` for a failed scanner. -/
def errList (r : Except String (List Environment)) : List String :=
  match r with
  | Except.ok _ => []
  | Except.error m => ["Error in scanning: " ++ m]

/-- `scan_all_environments`: gather the three scanner outcomes
(`return_exceptions=True`), extend the result list with each success and
log each failure. Returns the merged list and the log. -/
def scan_all_environments (r1 r2 r3 : Except String (List Environment)) :
    List Environment × List String :=
  [r1, r2, r3].foldl (fun acc r =>
    match r with
    | Except.ok l => (acc.1 ++ l, acc.2)
    | Except.error m => (acc.1, acc.2 ++ ["Error in scanning: " ++ m])) ([], [])

/-- One update `d[k] = v` of an insertion-ordered mapping (the semantics
of the Python dict built by `{env.path: env for env in envs}`): an
existing key keeps its position and takes the new value, a new key is
appended. -/
def dictInsert : List (String × Environment) → String → Environment → List (String × Environment)
  | [], k, v => [(k, v)]
  | kv :: rest, k, v => if kv.1 == k then (k, v) :: rest else kv :: dictInsert rest k v

/-- The dict comprehension `{env.path: env for env in envs}`. -/
def dictOfEnvs (envs : List Environment) : List (String × Environment) :=
  envs.foldl (fun d e => dictInsert d e.path e) []

/-- The caller's deduplication step,
`list({env.path: env for env in envs}.values())`. -/
def refresh_dedup (envs : List Environment) : List Environment :=
  (dictOfEnvs envs).map Prod.snd

/-- `is_current_env`: resolve the running interpreter's path and the
candidate path and test string-prefix containment; any resolution
failure is caught and yields `false`. -/
def is_current_env (sys : Sys) (env_path : String) : Bool :=
  match sys.resolve sys.sysExecutable, sys.resolve env_path with
  | some interp, some envp => strStarts interp envp
  | _, _ => false

/-- A filesystem/registration mutation attempted by the deletion
executor. -/
inductive DeleteAction where
  | condaRemove (path : String)
  | rmtree (path : String)
deriving DecidableEq, Repr

/-- `delete_environment`: guard checks, then either the Conda removal
command or `shutil.rmtree`. Returns the `(success, message)` pair and
the list of mutations attempted. -/
def delete_environment (sys : Sys) (env : Environment) :
    (Bool × String) × List DeleteAction :=
  if is_current_env sys env.path then
    ((false, "Cannot delete the environment currently in use."), [])
  else if env.env_type == "Conda" then
    if strLower env.name == "base" then
      ((false, "Cannot delete the Conda base environment."), [])
    else
      match sys.condaRemoveErr env.path with
      | none => ((true, "Conda environment removed successfully."), [DeleteAction.condaRemove env.path])
      | some e => ((false, "Error deleting Conda environment: " ++ e), [DeleteAction.condaRemove env.path])
  else
    match sys.rmtreeErr env.path with
    | none => ((true, "Environment removed successfully."), [DeleteAction.rmtree env.path])
    | some e => ((false, "Error deleting environment: " ++ e), [DeleteAction.rmtree env.path])

/-- A concrete system state for examples: directories and files given by
finite lists, identity path resolution, and deletion operations that
succeed. -/
def mkSys (dirs files : List String) (ld : String → List String)
    (home cwd exe : String) (cw : Option String) (cel : Option (List String)) : Sys :=
  { isDir := fun q => dirs.contains q
    fileExists := fun q => files.contains q
    listDir := ld
    resolve := fun q => some q
    home := home
    cwd := cwd
    sysExecutable := exe
    condaWhich := cw
    condaEnvList := cel
    condaRemoveErr := fun _ => none
    rmtreeErr := fun _ => none }

/-- A host whose interpreter is `/usr/bin/python3` and whose filesystem
is otherwise empty. -/
def sysUsrBi : Sys :=
  mkSys [] [] (fun _ => []) "/h" "/h" "/usr/bin/python3" none none

/-- A host running from a Conda installation at `/opt/conda`. -/
def sysCondaBase : Sys :=
  mkSys [] [] (fun _ => []) "/h" "/h" "/opt/conda/bin/python" none none

/-- The Conda base environment of `sysCondaBase`. -/
def condaBaseEnv : Environment :=
  { name := "Base", env_type := "Conda", path := "/opt/conda" }

/-- A host running from the venv `/opt/venvs/base`. -/
def sysVenvBase : Sys :=
  mkSys [] [] (fun _ => []) "/h" "/h" "/opt/venvs/base/bin/python" none none

/-- A non-Conda environment named like the Conda base environment. -/
def venvBaseEnv : Environment :=
  { name := "BASE", env_type := "venv", path := "/opt/venvs/base" }

/-- A host whose Conda CLI reports the stale path `/gone/env`; that
directory no longer exists, so `conda env remove` on it fails, as does
`rmtree` of the vanished `/gone2`. -/
def sysCondaCli : Sys :=
  { mkSys [] [] (fun _ => []) "/h" "/h" "/usr/bin/python3"
      (some "/usr/bin/conda") (some ["/gone/env"]) with
    condaRemoveErr := fun q => if q == "/gone/env" then some "CondaEnvironmentError" else none
    rmtreeErr := fun q => if q == "/gone2" then some "No such file or directory" else none }

/-- A vanished non-Conda environment on `sysCondaCli`. -/
def goneEnv : Environment :=
  { name := "gone2", env_type := "venv", path := "/gone2" }

/-- The stale Conda environment reported by the CLI of `sysCondaCli`. -/
def goneCondaEnv : Environment :=
  { name := "env", env_type := "Conda", path := "/gone/env" }

/-- A host where the Conda CLI exists but its `env list --json`
invocation fails, while `~/miniconda3/envs/foo` is a Conda environment
the manual scan would find. -/
def sysCondaFail : Sys :=
  mkSys ["/h/miniconda3/envs", "/h/miniconda3/envs/foo", "/h/miniconda3/envs/foo/conda-meta"]
    [] (fun q => if q == "/h/miniconda3/envs" then ["foo"] else [])
    "/h" "/h" "/usr/bin/python3" (some "/usr/bin/conda") none

/-- A host whose home directory path `/local` contains the substring
`"local"`, with `~/.virtualenvs/myenv` a venv. -/
def sysLocalHome : Sys :=
  mkSys ["/local/.virtualenvs", "/local/.virtualenvs/myenv"]
    ["/local/.virtualenvs/myenv/pyvenv.cfg"]
    (fun q => if q == "/local/.virtualenvs" then ["myenv"] else [])
    "/local" "/local" "/usr/bin/python3" none none

/-- A host with home `/h` and `~/.virtualenvs/myenv` a venv. -/
def sysHomeH : Sys :=
  mkSys ["/h/.virtualenvs", "/h/.virtualenvs/myenv"]
    ["/h/.virtualenvs/myenv/pyvenv.cfg"]
    (fun q => if q == "/h/.virtualenvs" then ["myenv"] else [])
    "/h" "/h" "/usr/bin/python3" none none

/-- A host whose current working directory `/tmp/project` holds an
in-project `.venv`. -/
def sysProj : Sys :=
  mkSys ["/tmp/project/.venv"] ["/tmp/project/.venv/pyvenv.cfg"]
    (fun _ => []) "/h" "/tmp/project" "/usr/bin/python3" none none

/-- `sysUsrBi` with path resolution failing everywhere except on the
interpreter path. -/
def sysResolveFail : Sys :=
  { sysUsrBi with resolve := fun q => if q == "/usr/bin/python3" then some q else none }

/-- A Conda base environment not containing the running interpreter of
`sysUsrBi`. -/
def condaBaseElsewhere : Environment :=
  { name := "base", env_type := "Conda", path := "/h/miniconda3" }

/-- A non-Conda environment named `base`, not containing the running
interpreter of `sysUsrBi`. -/
def plainBaseEnv : Environment :=
  { name := "base", env_type := "venv", path := "/h/venvs/base" }

/-- C8: `scan_all_environments` never raises (it is a total function of
the three gathered scanner outcomes) and returns exactly the
concatenation of the successful scanners' records, logging one
`"Error in scanning: ..."` line per failed scanner. -/
theorem scan_all_environments_collects (r1 r2 r3 : Except String (List Environment)) :
    scan_all_environments r1 r2 r3 =
      (okList r1 ++ okList r2 ++ okList r3, errList r1 ++ errList r2 ++ errList r3) := by
  cases r1 <;> cases r2 <;> cases r3 <;>
    simp [scan_all_environments, okList, errList]

/-- C3: deleting an environment for which `is_current_env` holds fails
immediately with the in-use message and attempts no mutation. -/
theorem delete_environment_in_use_refused (sys : Sys) (env : Environment)
    (h : is_current_env sys env.path = true) :
    delete_environment sys env =
      ((false, "Cannot delete the environment currently in use."), []) := by
  simp [delete_environment, h]

/-- Witness for C3: the Conda installation `/opt/conda` contains the
running interpreter `/opt/conda/bin/python`, so deleting it is refused
with the in-use message and no mutation. -/
theorem delete_environment_in_use_refused_witness :
    is_current_env sysCondaBase condaBaseEnv.path = true ∧
    delete_environment sysCondaBase condaBaseEnv =
      ((false, "Cannot delete the environment currently in use."), []) :=
  ⟨by decide, delete_environment_in_use_refused sysCondaBase condaBaseEnv (by decide)⟩

/-- C4 counterexample: a Conda environment named `Base` that contains
the running interpreter is refused with the in-use message, not the
base-environment-protection message, because the in-use check runs
first. -/
theorem delete_conda_base_in_use_message_cex :
    condaBaseEnv.env_type = "Conda" ∧ strLower condaBaseEnv.name = "base" ∧
    (delete_environment sysCondaBase condaBaseEnv).1.2 ≠
      "Cannot delete the Conda base environment." := by
  refine ⟨rfl, by decide, by decide⟩

/-- C4 amended: for every Conda environment whose name lowercases to
`base`, deletion returns success = false and attempts no mutation; the
message is the base-environment-protection message provided the
environment is not the one currently in use (the in-use check runs
first and its message takes precedence). -/
theorem delete_conda_base_refused_amended (sys : Sys) (env : Environment)
    (ht : env.env_type = "Conda") (hn : strLower env.name = "base") :
    (delete_environment sys env).1.1 = false ∧
    (delete_environment sys env).2 = [] ∧
    (is_current_env sys env.path = false →
      (delete_environment sys env).1.2 = "Cannot delete the Conda base environment.") := by
  unfold delete_environment
  cases hc : is_current_env sys env.path
  · simp [hc, ht, hn]
  · simp [hc]

/-- Witness for the amended C4: a Conda environment named `base` under
`~/miniconda3`, not in use, is refused with the base-protection
message. -/
theorem delete_conda_base_refused_amended_witness :
    (delete_environment sysUsrBi condaBaseElsewhere).1.1 = false ∧
    (delete_environment sysUsrBi condaBaseElsewhere).2 = [] ∧
    (is_current_env sysUsrBi condaBaseElsewhere.path = false →
      (delete_environment sysUsrBi condaBaseElsewhere).1.2 =
        "Cannot delete the Conda base environment.") :=
  delete_conda_base_refused_amended sysUsrBi condaBaseElsewhere rfl (by decide)

/-- C10 counterexample: a non-Conda environment named `BASE` that
contains the running interpreter is refused by the in-use guard, so no
recursive directory deletion is attempted. -/
theorem delete_non_conda_base_in_use_cex :
    venvBaseEnv.env_type ≠ "Conda" ∧ strLower venvBaseEnv.name = "base" ∧
    (delete_environment sysVenvBase venvBaseEnv).1 =
      (false, "Cannot delete the environment currently in use.") ∧
    (delete_environment sysVenvBase venvBaseEnv).2 = [] := by
  refine ⟨by decide, by decide, by decide, by decide⟩

/-- C10 amended: the base-name protection never fires for a non-Conda
environment — deletion never returns the base-refusal outcome — and,
provided the environment is not the one currently in use, deletion
proceeds to the recursive directory delete of its path regardless of
the name `base`. -/
theorem delete_non_conda_base_proceeds (sys : Sys) (env : Environment)
    (ht : env.env_type ≠ "Conda") :
    delete_environment sys env ≠
      ((false, "Cannot delete the Conda base environment."), []) ∧
    (is_current_env sys env.path = false →
      (delete_environment sys env).2 = [DeleteAction.rmtree env.path]) := by
  unfold delete_environment
  cases hc : is_current_env sys env.path
  · have ht' : (env.env_type == "Conda") = false := by simp [ht]
    cases hr : sys.rmtreeErr env.path <;> simp [hc, ht', hr]
  · rw [if_pos rfl]
    exact ⟨by decide, fun h => by simp at h⟩

/-- Witness for the amended C10: a venv named `base` that is not in use
is not refused and its directory delete is attempted. -/
theorem delete_non_conda_base_proceeds_witness :
    delete_environment sysUsrBi plainBaseEnv ≠
      ((false, "Cannot delete the Conda base environment."), []) ∧
    (is_current_env sysUsrBi plainBaseEnv.path = false →
      (delete_environment sysUsrBi plainBaseEnv).2 = [DeleteAction.rmtree plainBaseEnv.path]) :=
  delete_non_conda_base_proceeds sysUsrBi plainBaseEnv (by decide)

/-- C2 counterexample: `/usr/bi` is not an ancestor directory of the
interpreter path `/usr/bin/python3` (and its resolution succeeds), yet
`is_current_env` returns true, because the check is a raw string-prefix
test without a separator check. -/
theorem is_current_env_ancestor_cex :
    isAncestorOf "/usr/bi" sysUsrBi.sysExecutable = false ∧
    sysUsrBi.resolve "/usr/bi" = some "/usr/bi" ∧
    is_current_env sysUsrBi "/usr/bi" = true := by
  refine ⟨by decide, rfl, by decide⟩

/-- C2 amended: `is_current_env(p)` returns false whenever resolution of
`p` or of the interpreter path fails; it returns true only when both
resolutions succeed and the resolved `p` is a string prefix of the
resolved interpreter path — a weaker guarantee than the
ancestor-directory check, since a non-ancestor string prefix such as
`/usr/bi` against `/usr/bin/python3` is wrongly accepted. -/
theorem is_current_env_amended (sys : Sys) (p : String) :
    (sys.resolve p = none ∨ sys.resolve sys.sysExecutable = none →
      is_current_env sys p = false) ∧
    (is_current_env sys p = true →
      ∃ i e, sys.resolve sys.sysExecutable = some i ∧ sys.resolve p = some e ∧
        strStarts i e = true) := by
  unfold is_current_env
  cases hi : sys.resolve sys.sysExecutable <;> cases he : sys.resolve p <;> simp [hi, he]

/-- Witness for the amended C2: on a host where `/loop` fails to
resolve, `is_current_env "/loop"` is false rather than an error. -/
theorem is_current_env_amended_witness :
    is_current_env sysResolveFail "/loop" = false :=
  (is_current_env_amended sysResolveFail "/loop").1 (Or.inl (by decide))

/-- C6 counterexample: the Conda CLI is present but its listing
invocation fails; `scan_conda_envs` returns the empty list and does not
fall back to the directory scan, although that scan would have found
`~/miniconda3/envs/foo`. -/
theorem conda_cli_failure_no_fallback_cex :
    sysCondaFail.condaWhich = some "/usr/bin/conda" ∧
    sysCondaFail.condaEnvList = none ∧
    scan_conda_envs sysCondaFail = [] ∧
    condaManualScan sysCondaFail = [⟨"foo", "Conda", "/h/miniconda3/envs/foo"⟩] := by
  refine ⟨rfl, rfl, rfl, by decide⟩

/-- C6 amended: the directory fallback runs only when the Conda CLI is
missing from the search path; when the CLI is present but the listing
invocation fails (non-zero exit or malformed output), the error is
contained and the Conda scanner contributes the empty list, with no
fallback. -/
theorem conda_fallback_only_when_missing (sys : Sys) :
    (sys.condaWhich = none → scan_conda_envs sys = condaManualScan sys) ∧
    (∀ cp, sys.condaWhich = some cp → sys.condaEnvList = none →
      scan_conda_envs sys = []) := by
  constructor
  · intro hw
    simp [scan_conda_envs, hw]
  · intro cp hw hl
    simp [scan_conda_envs, hw, hl]

/-- Witness for the amended C6: on `sysCondaFail` the CLI is present and
failing, and the scanner returns the empty list. -/
theorem conda_fallback_only_when_missing_witness :
    scan_conda_envs sysCondaFail = [] :=
  (conda_fallback_only_when_missing sysCondaFail).2 "/usr/bin/conda" rfl rfl

/-- C9: if the current working directory has an immediate `.venv`
subdirectory containing `pyvenv.cfg` (resolving to `r`), the
local-project scanner returns exactly one Environment typed
`venv (local)` named after the current working directory's final
component; otherwise it returns the empty list. -/
theorem scan_current_dir_venv_spec (sys : Sys) :
    (∀ r, sys.isDir (pathJoin sys.cwd ".venv") = true →
      sys.fileExists (pathJoin (pathJoin sys.cwd ".venv") "pyvenv.cfg") = true →
      sys.resolve (pathJoin sys.cwd ".venv") = some r →
      scan_current_dir_venv sys =
        Except.ok [{ name := pathName sys.cwd, env_type := "venv (local)", path := r }]) ∧
    ((sys.isDir (pathJoin sys.cwd ".venv") = false ∨
      sys.fileExists (pathJoin (pathJoin sys.cwd ".venv") "pyvenv.cfg") = false) →
      scan_current_dir_venv sys = Except.ok []) := by
  constructor
  · intro r hd hf hr
    simp [scan_current_dir_venv, hd, hf, hr]
  · intro h
    rcases h with h | h <;> simp [scan_current_dir_venv, h]

/-- Witness for C9: `/tmp/project/.venv` with `pyvenv.cfg` yields the
single record named `project` (the directory's final component). -/
theorem scan_current_dir_venv_spec_witness :
    scan_current_dir_venv sysProj =
      Except.ok [{ name := pathName sysProj.cwd, env_type := "venv (local)",
                   path := "/tmp/project/.venv" }] :=
  (scan_current_dir_venv_spec sysProj).1 "/tmp/project/.venv" (by decide) (by decide) rfl

/-- C5 counterexample: the Conda-CLI branch records the reported path
`/gone/env` although it is not an existing directory, and
`delete_environment` attempts its removal (the `conda env remove`
branch) with no existence re-check, just as it attempts the recursive
delete of the vanished non-Conda `/gone2` — in both branches the
vanished path surfaces only as the error result of the attempted
operation. -/
theorem conda_cli_path_unchecked_cex :
    scan_conda_envs sysCondaCli = [⟨"env", "Conda", "/gone/env"⟩] ∧
    sysCondaCli.isDir "/gone/env" = false ∧
    delete_environment sysCondaCli goneCondaEnv =
      ((false, "Error deleting Conda environment: CondaEnvironmentError"),
        [DeleteAction.condaRemove "/gone/env"]) ∧
    sysCondaCli.isDir goneEnv.path = false ∧
    delete_environment sysCondaCli goneEnv =
      ((false, "Error deleting environment: No such file or directory"),
        [DeleteAction.rmtree "/gone2"]) := by
  refine ⟨by decide, rfl, by decide, rfl, by decide⟩

/-- Every record emitted by the venv-scanner loop comes from an entry
that was checked to be a directory, and its path is that entry's
resolution. -/
theorem scanVenvEntries_isDir (sys : Sys) (base : String) (l : List String) :
    ∀ env ∈ scanVenvEntries sys base l,
      ∃ q, sys.isDir q = true ∧ sys.resolve q = some env.path := by
  induction l with
  | nil => intro env h; simp [scanVenvEntries] at h
  | cons a as ih =>
    intro env h
    simp only [scanVenvEntries] at h
    by_cases hcond : (sys.isDir (pathJoin base a) &&
        sys.fileExists (pathJoin (pathJoin base a) "pyvenv.cfg")) = true
    · rw [if_pos hcond] at h
      cases hr : sys.resolve (pathJoin base a) with
      | some r =>
        simp only [hr, List.mem_cons] at h
        rcases h with h | h
        · subst h
          exact ⟨pathJoin base a, (Bool.and_eq_true _ _ |>.mp hcond).1, by rw [hr]⟩
        · exact ih env h
      | none => simp [hr] at h
    · rw [if_neg hcond] at h
      exact ih env h

/-- Every record emitted by the manual Conda-scanner loop comes from an
entry that was checked to be a directory, and its path is that entry's
resolution. -/
theorem scanCondaEntries_isDir (sys : Sys) (base : String) (l : List String) :
    ∀ env ∈ scanCondaEntries sys base l,
      ∃ q, sys.isDir q = true ∧ sys.resolve q = some env.path := by
  induction l with
  | nil => intro env h; simp [scanCondaEntries] at h
  | cons a as ih =>
    intro env h
    simp only [scanCondaEntries] at h
    by_cases hd : sys.isDir (pathJoin base a) = true
    · rw [if_pos hd] at h
      by_cases hm : (sys.isDir (pathJoin (pathJoin base a) "conda-meta") ||
          sys.fileExists (pathJoin (pathJoin (pathJoin base a) "bin") "python")) = true
      · rw [if_pos hm] at h
        cases hr : sys.resolve (pathJoin base a) with
        | some r =>
          simp only [hr, List.mem_cons] at h
          rcases h with h | h
          · subst h
            exact ⟨pathJoin base a, hd, by rw [hr]⟩
          · exact ih env h
        | none => simp [hr] at h
      · rw [if_neg hm] at h
        exact ih env h
    · rw [if_neg hd] at h
      exact ih env h

/-- C5 amended: records produced by the directory-scanning branches
(the venv scanner, the manual Conda fallback, the local-project
scanner) come from entries checked to be directories at record time;
the Conda-CLI branch records paths as reported without such a check
(see the counterexample); and `delete_environment` performs no
existence re-check — for every non-current environment that passes the
guards, the deletion operation of its branch (`conda env remove` for a
non-base Conda environment, the recursive directory delete otherwise)
is attempted unconditionally, a vanished path surfacing only as the
failure result of that attempt. -/
theorem scanner_paths_checked_amended (sys : Sys) :
    (∀ env ∈ scan_venv_dirs sys,
      ∃ q, sys.isDir q = true ∧ sys.resolve q = some env.path) ∧
    (sys.condaWhich = none → ∀ env ∈ scan_conda_envs sys,
      ∃ q, sys.isDir q = true ∧ sys.resolve q = some env.path) ∧
    (∀ l, scan_current_dir_venv sys = Except.ok l → ∀ env ∈ l,
      ∃ q, sys.isDir q = true ∧ sys.resolve q = some env.path) ∧
    (∀ env : Environment, is_current_env sys env.path = false →
      (env.env_type = "Conda" → strLower env.name ≠ "base" →
        (delete_environment sys env).2 = [DeleteAction.condaRemove env.path]) ∧
      (env.env_type ≠ "Conda" →
        (delete_environment sys env).2 = [DeleteAction.rmtree env.path])) := by
  refine ⟨?_, ?_, ?_, ?_⟩
  · intro env h
    unfold scan_venv_dirs at h
    rw [List.mem_flatten] at h
    obtain ⟨l, hl, hm⟩ := h
    rw [List.mem_map] at hl
    obtain ⟨base, _, rfl⟩ := hl
    by_cases hd : sys.isDir base = true
    · rw [if_pos hd] at hm
      exact scanVenvEntries_isDir sys base _ env hm
    · rw [if_neg hd] at hm
      simp at hm
  · intro hw env h
    unfold scan_conda_envs at h
    rw [hw] at h
    unfold condaManualScan at h
    rw [List.mem_flatten] at h
    obtain ⟨l, hl, hm⟩ := h
    rw [List.mem_map] at hl
    obtain ⟨base, _, rfl⟩ := hl
    by_cases hd : sys.isDir base = true
    · rw [if_pos hd] at hm
      exact scanCondaEntries_isDir sys base _ env hm
    · rw [if_neg hd] at hm
      simp at hm
  · intro l hok env h
    unfold scan_current_dir_venv at hok
    by_cases hc : (sys.isDir (pathJoin sys.cwd ".venv") &&
        sys.fileExists (pathJoin (pathJoin sys.cwd ".venv") "pyvenv.cfg")) = true
    · rw [if_pos hc] at hok
      cases hr : sys.resolve (pathJoin sys.cwd ".venv") with
      | some r =>
        rw [hr] at hok
        simp only [Except.ok.injEq] at hok
        subst hok
        simp only [List.mem_singleton] at h
        subst h
        exact ⟨pathJoin sys.cwd ".venv", (Bool.and_eq_true _ _ |>.mp hc).1, by rw [hr]⟩
      | none => rw [hr] at hok; exact absurd hok (by simp)
    · rw [if_neg hc] at hok
      simp only [Except.ok.injEq] at hok
      subst hok
      simp at h
  · intro env hc
    constructor
    · intro ht hn
      unfold delete_environment
      have ht' : (env.env_type == "Conda") = true := by simp [ht]
      have hn' : (strLower env.name == "base") = false := by simp [hn]
      cases hr : sys.condaRemoveErr env.path <;> simp [hc, ht', hn', hr]
    · intro ht
      unfold delete_environment
      have ht' : (env.env_type == "Conda") = false := by simp [ht]
      cases hr : sys.rmtreeErr env.path <;> simp [hc, ht', hr]

/-- Witness for the amended C5: the record `myenv` found by the venv
scanner on `sysHomeH` comes from an entry checked to be a directory,
and on `sysCondaCli` both deletion branches are attempted at vanished
paths. -/
theorem scanner_paths_checked_amended_witness :
    (∃ q, sysHomeH.isDir q = true ∧ sysHomeH.resolve q = some "/h/.virtualenvs/myenv") ∧
    (delete_environment sysCondaCli goneCondaEnv).2 =
      [DeleteAction.condaRemove goneCondaEnv.path] ∧
    (delete_environment sysCondaCli goneEnv).2 = [DeleteAction.rmtree goneEnv.path] :=
  ⟨(scanner_paths_checked_amended sysHomeH).1
      { name := "myenv", env_type := "venv", path := "/h/.virtualenvs/myenv" } (by decide),
    ((scanner_paths_checked_amended sysCondaCli).2.2.2 goneCondaEnv (by decide)).1
      rfl (by decide),
    ((scanner_paths_checked_amended sysCondaCli).2.2.2 goneEnv (by decide)).2 (by decide)⟩

/-- C7 counterexample: under the home directory `/local` — whose path
contains the substring `"local"` — the directory
`/local/.virtualenvs/myenv` with `pyvenv.cfg` is classified `Pipenv`,
not `venv`, because the type is a substring match on the full base
path. -/
theorem venv_scan_local_home_cex :
    sysLocalHome.home = "/local" ∧
    sysLocalHome.isDir (pathJoin (pathJoin sysLocalHome.home ".virtualenvs") "myenv") = true ∧
    sysLocalHome.fileExists
      (pathJoin (pathJoin (pathJoin sysLocalHome.home ".virtualenvs") "myenv") "pyvenv.cfg") = true ∧
    scan_venv_dirs sysLocalHome = [⟨"myenv", "Pipenv", "/local/.virtualenvs/myenv"⟩] := by
  refine ⟨rfl, by decide, by decide, by decide⟩

/-- The venv-scanner loop finds every listed entry that passes the
directory and marker checks, provided resolution is total. -/
theorem scanVenvEntries_mem (sys : Sys) (base : String)
    (hres : ∀ q, (sys.resolve q).isSome = true) (l : List String) :
    ∀ e r, e ∈ l →
      sys.isDir (pathJoin base e) = true →
      sys.fileExists (pathJoin (pathJoin base e) "pyvenv.cfg") = true →
      sys.resolve (pathJoin base e) = some r →
      { name := e, env_type := baseEtype base, path := r } ∈ scanVenvEntries sys base l := by
  induction l with
  | nil => intro e r he _ _ _; simp at he
  | cons a as ih =>
    intro e r he hd hf hr
    simp only [scanVenvEntries]
    rcases List.mem_cons.mp he with rfl | hmem
    · rw [if_pos (by rw [hd, hf]; rfl), hr]
      exact List.mem_cons_self _ _
    · by_cases hcond : (sys.isDir (pathJoin base a) &&
          sys.fileExists (pathJoin (pathJoin base a) "pyvenv.cfg")) = true
      · rw [if_pos hcond]
        have hs := hres (pathJoin base a)
        cases hra : sys.resolve (pathJoin base a) with
        | none => rw [hra] at hs; simp at hs
        | some ra =>
          exact List.mem_cons_of_mem _ (ih e r hmem hd hf hr)
      · rw [if_neg hcond]
        exact ih e r hmem hd hf hr

/-- C7 amended: for every home directory whose `.virtualenvs` base path
contains neither `"pypoetry"` nor `"local"` as a substring, a listed
entry `myenv` of that base holding `pyvenv.cfg` yields an Environment
named `myenv`, typed `venv`, whose path is the entry's resolution; in
general the type is the substring-based classification of the full
base path (`baseEtype`). -/
theorem venv_scan_scenario_amended (sys : Sys) (r : String)
    (hres : ∀ q, (sys.resolve q).isSome = true)
    (hp : strContains (pathJoin sys.home ".virtualenvs") "pypoetry" = false)
    (hl : strContains (pathJoin sys.home ".virtualenvs") "local" = false)
    (hb : sys.isDir (pathJoin sys.home ".virtualenvs") = true)
    (hmem : "myenv" ∈ sys.listDir (pathJoin sys.home ".virtualenvs"))
    (hd : sys.isDir (pathJoin (pathJoin sys.home ".virtualenvs") "myenv") = true)
    (hf : sys.fileExists
      (pathJoin (pathJoin (pathJoin sys.home ".virtualenvs") "myenv") "pyvenv.cfg") = true)
    (hr : sys.resolve (pathJoin (pathJoin sys.home ".virtualenvs") "myenv") = some r) :
    { name := "myenv", env_type := "venv", path := r } ∈ scan_venv_dirs sys := by
  have hty : baseEtype (pathJoin sys.home ".virtualenvs") = "venv" := by
    simp [baseEtype, hp, hl]
  have hmem2 := scanVenvEntries_mem sys (pathJoin sys.home ".virtualenvs") hres
    (sys.listDir (pathJoin sys.home ".virtualenvs")) "myenv" r hmem hd hf hr
  rw [hty] at hmem2
  unfold scan_venv_dirs
  rw [List.mem_flatten]
  refine ⟨scanVenvEntries sys (pathJoin sys.home ".virtualenvs")
    (sys.listDir (pathJoin sys.home ".virtualenvs")), ?_, hmem2⟩
  rw [List.mem_map]
  refine ⟨pathJoin sys.home ".virtualenvs", ?_, by rw [if_pos hb]⟩
  simp [venvBases]

/-- Witness for the amended C7: home `/h` satisfies the substring side
conditions and the scanner finds `myenv` typed `venv`. -/
theorem venv_scan_scenario_amended_witness :
    ({ name := "myenv", env_type := "venv", path := "/h/.virtualenvs/myenv" } : Environment) ∈
      scan_venv_dirs sysHomeH :=
  venv_scan_scenario_amended sysHomeH "/h/.virtualenvs/myenv" (fun _ => rfl)
    (by decide) (by decide) (by decide) (by decide) (by decide) (by decide) (by decide)

/-- C1 counterexample: two scanners each succeed and report an
Environment with the same path `/p`; the list returned by
`scan_all_environments` contains two Environments with that path, not
exactly one — deduplication happens in the caller, not here. -/
theorem scan_all_environments_no_dedup_cex :
    ((scan_all_environments (Except.ok [⟨"a", "venv", "/p"⟩])
        (Except.ok [⟨"b", "Conda", "/p"⟩]) (Except.ok [])).1.filter
      (fun e => e.path == "/p")).length = 2 := by
  decide

/-- A key absent from an association list filters to nothing. -/
theorem filter_key_eq_nil (p : String) (d : List (String × Environment))
    (h : p ∉ d.map Prod.fst) :
    d.filter (fun kv => kv.1 == p) = [] := by
  induction d with
  | nil => rfl
  | cons kv rest ih =>
    simp only [List.map_cons, List.mem_cons] at h
    push_neg at h
    rw [List.filter_cons, if_neg (by simp [Ne.symm h.1])]
    exact ih h.2

/-- Inserting under a key different from `p` does not change the
entries filed under `p`. -/
theorem dictInsert_filter_ne (p k : String) (v : Environment) (hk : (k == p) = false)
    (d : List (String × Environment)) :
    (dictInsert d k v).filter (fun kv => kv.1 == p) =
      d.filter (fun kv => kv.1 == p) := by
  induction d with
  | nil => simp [dictInsert, hk]
  | cons kv rest ih =>
    rw [dictInsert]
    by_cases hkv : (kv.1 == k) = true
    · have h1 : kv.1 = k := by simpa using hkv
      rw [if_pos hkv, List.filter_cons, List.filter_cons]
      rw [h1]
      simp [hk]
    · rw [if_neg hkv, List.filter_cons, List.filter_cons]
      by_cases hkp : (kv.1 == p) = true
      · rw [if_pos hkp, if_pos hkp, ih]
      · rw [if_neg hkp, if_neg hkp, ih]

/-- Every key of `dictInsert d k v` is a key of `d` or is `k`. -/
theorem memKey_dictInsert (k : String) (v : Environment)
    (d : List (String × Environment)) :
    ∀ x ∈ (dictInsert d k v).map Prod.fst, x ∈ d.map Prod.fst ∨ x = k := by
  induction d with
  | nil => intro x hx; simp [dictInsert] at hx; exact Or.inr hx
  | cons kv rest ih =>
    intro x hx
    rw [dictInsert] at hx
    by_cases hkv : (kv.1 == k) = true
    · rw [if_pos hkv] at hx
      simp only [List.map_cons, List.mem_cons] at hx
      rcases hx with rfl | hx
      · exact Or.inr rfl
      · exact Or.inl (by simp [hx])
    · rw [if_neg hkv] at hx
      simp only [List.map_cons, List.mem_cons] at hx
      rcases hx with rfl | hx
      · exact Or.inl (by simp)
      · rcases ih x hx with h | h
        · exact Or.inl (by simp [h])
        · exact Or.inr h

/-- `dictInsert` preserves distinctness of keys. -/
theorem nodup_dictInsert (k : String) (v : Environment)
    (d : List (String × Environment)) (hnd : (d.map Prod.fst).Nodup) :
    ((dictInsert d k v).map Prod.fst).Nodup := by
  induction d with
  | nil => simp [dictInsert]
  | cons kv rest ih =>
    rw [List.map_cons, List.nodup_cons] at hnd
    rw [dictInsert]
    by_cases hkv : (kv.1 == k) = true
    · have h1 : kv.1 = k := by simpa using hkv
      rw [if_pos hkv, List.map_cons, List.nodup_cons]
      exact ⟨h1 ▸ hnd.1, hnd.2⟩
    · rw [if_neg hkv, List.map_cons, List.nodup_cons]
      refine ⟨?_, ih hnd.2⟩
      intro hx
      rcases memKey_dictInsert k v rest kv.1 hx with h | h
      · exact hnd.1 h
      · exact hkv (by simp [h])

/-- With distinct keys, inserting under `p` leaves exactly the new
entry filed under `p`. -/
theorem dictInsert_filter_self (p : String) (v : Environment)
    (d : List (String × Environment)) (hnd : (d.map Prod.fst).Nodup) :
    (dictInsert d p v).filter (fun kv => kv.1 == p) = [(p, v)] := by
  induction d with
  | nil => simp [dictInsert]
  | cons kv rest ih =>
    rw [List.map_cons, List.nodup_cons] at hnd
    rw [dictInsert]
    by_cases hkv : (kv.1 == p) = true
    · have h1 : kv.1 = p := by simpa using hkv
      rw [if_pos hkv, List.filter_cons, if_pos (by simp)]
      rw [filter_key_eq_nil p rest (h1 ▸ hnd.1)]
    · rw [if_neg hkv, List.filter_cons, if_neg (by simp [hkv])]
      exact ih hnd.2

/-- The last element of a nonempty list, as an explicit `some`. -/
theorem getLast?_cons_isSome {α : Type} (a : α) (l : List α) :
    ∃ v, (a :: l).getLast? = some v := by
  induction l generalizing a with
  | nil => exact ⟨a, rfl⟩
  | cons b t ih =>
    rw [List.getLast?_cons_cons]
    exact ih b

/-- Filing the fold of `dictInsert` under `p`: if some processed record
has path `p`, exactly the last such record is filed under `p`;
otherwise the entries of the start dictionary remain. -/
theorem dict_fold_filter (p : String) (envs : List Environment) :
    ∀ d : List (String × Environment), (d.map Prod.fst).Nodup →
      (envs.foldl (fun d e => dictInsert d e.path e) d).filter (fun kv => kv.1 == p) =
        match (envs.filter (fun e => e.path == p)).getLast? with
        | some v => [(p, v)]
        | none => d.filter (fun kv => kv.1 == p) := by
  induction envs with
  | nil => intro d _; simp
  | cons e es ih =>
    intro d hnd
    rw [List.foldl_cons, ih (dictInsert d e.path e) (nodup_dictInsert e.path e d hnd),
      List.filter_cons]
    by_cases hep : (e.path == p) = true
    · have hp : e.path = p := by simpa using hep
      rw [if_pos hep]
      cases hfe : es.filter (fun x => x.path == p) with
      | nil =>
        have h2 : (dictInsert d e.path e).filter (fun kv => kv.1 == p) = [(p, e)] := by
          rw [hp]
          exact dictInsert_filter_self p e d hnd
        simpa using h2
      | cons a as =>
        rw [List.getLast?_cons_cons]
        obtain ⟨v, hv⟩ := getLast?_cons_isSome a as
        rw [hv]
    · have hep' : (e.path == p) = false := by simpa using hep
      rw [if_neg hep]
      cases hfe : es.filter (fun x => x.path == p) with
      | nil =>
        simpa using dictInsert_filter_ne p e.path e hep' d
      | cons a as =>
        obtain ⟨v, hv⟩ := getLast?_cons_isSome a as
        rw [hv]

/-- Every value in the path-keyed dictionary is filed under its own
path. -/
theorem dict_fold_paths (envs : List Environment) :
    ∀ d : List (String × Environment),
      (∀ kv ∈ d, (kv : String × Environment).2.path = kv.1) →
      ∀ kv ∈ envs.foldl (fun d e => dictInsert d e.path e) d, kv.2.path = kv.1 := by
  induction envs with
  | nil => intro d hd; exact hd
  | cons e es ih =>
    intro d hd
    rw [List.foldl_cons]
    refine ih (dictInsert d e.path e) ?_
    have hins : ∀ (d' : List (String × Environment)),
        (∀ kv ∈ d', (kv : String × Environment).2.path = kv.1) →
        ∀ kv ∈ dictInsert d' e.path e, kv.2.path = kv.1 := by
      intro d'
      induction d' with
      | nil =>
        intro _ kv hkv
        simp only [dictInsert, List.mem_singleton] at hkv
        subst hkv; rfl
      | cons kv0 rest ihd =>
        intro hall kv hkv
        rw [dictInsert] at hkv
        by_cases hkv0 : (kv0.1 == e.path) = true
        · rw [if_pos hkv0] at hkv
          rcases List.mem_cons.mp hkv with rfl | hkv
          · rfl
          · exact hall kv (List.mem_cons_of_mem _ hkv)
        · rw [if_neg hkv0] at hkv
          rcases List.mem_cons.mp hkv with rfl | hkv
          · exact hall kv (List.mem_cons_self _ _)
          · exact ihd (fun x hx => hall x (List.mem_cons_of_mem _ hx)) kv hkv
    exact hins d hd

/-- Applying the caller's dict-based deduplication to any merged list:
for a path `p` occurring in the list, the deduplicated list holds
exactly one Environment with path `p`, namely the last one. -/
theorem refresh_dedup_filter_last (l : List Environment) (p : String) (e0 : Environment)
    (h0 : e0 ∈ l) (hp : e0.path = p) :
    ∃ v, (refresh_dedup l).filter (fun e => e.path == p) = [v] ∧
      (l.filter (fun e => e.path == p)).getLast? = some v := by
  have hne : l.filter (fun e => e.path == p) ≠ [] := by
    intro hh
    have hmem : e0 ∈ l.filter (fun e => e.path == p) :=
      List.mem_filter.mpr ⟨h0, by simp [hp]⟩
    rw [hh] at hmem
    simp at hmem
  cases hfe : l.filter (fun e => e.path == p) with
  | nil => exact absurd hfe hne
  | cons a as =>
    obtain ⟨v, hv⟩ := getLast?_cons_isSome a as
    refine ⟨v, ?_, hv⟩
    have hd := dict_fold_filter p l [] (by simp)
    rw [hfe, hv] at hd
    have hall : ∀ kv ∈ dictOfEnvs l, (kv : String × Environment).2.path = kv.1 :=
      dict_fold_paths l [] (by simp)
    unfold refresh_dedup
    rw [List.filter_map, List.filter_congr (fun kv hkv => by
      simp only [Function.comp_apply]
      rw [hall kv hkv])]
    rw [show (dictOfEnvs l).filter (fun kv => kv.1 == p) = [(p, v)] from hd]
    rfl

/-- C1 amended: `scan_all_environments` itself returns the raw merged
list without deduplication (see the counterexample); the caller's
refresh step deduplicates it by path with a path-keyed dict, so for
every path reported by some scanner the displayed list contains exactly
one Environment with that path — the last-seen one on collision. -/
theorem refresh_dedup_last_seen_wins (r1 r2 r3 : Except String (List Environment))
    (p : String) (e0 : Environment)
    (h0 : e0 ∈ (scan_all_environments r1 r2 r3).1) (hp : e0.path = p) :
    ∃ v, (refresh_dedup (scan_all_environments r1 r2 r3).1).filter
        (fun e => e.path == p) = [v] ∧
      ((scan_all_environments r1 r2 r3).1.filter (fun e => e.path == p)).getLast? = some v :=
  refresh_dedup_filter_last (scan_all_environments r1 r2 r3).1 p e0 h0 hp

/-- Witness for the amended C1: on the colliding scanner outputs of the
counterexample, the deduplicated list keeps exactly one Environment
with path `/p`. -/
theorem refresh_dedup_last_seen_wins_witness :
    ∃ v, (refresh_dedup (scan_all_environments (Except.ok [⟨"a", "venv", "/p"⟩])
        (Except.ok [⟨"b", "Conda", "/p"⟩]) (Except.ok [])).1).filter
        (fun e => e.path == "/p") = [v] ∧
      ((scan_all_environments (Except.ok [⟨"a", "venv", "/p"⟩])
        (Except.ok [⟨"b", "Conda", "/p"⟩]) (Except.ok [])).1.filter
        (fun e => e.path == "/p")).getLast? = some v :=
  refresh_dedup_last_seen_wins (Except.ok [⟨"a", "venv", "/p"⟩])
    (Except.ok [⟨"b", "Conda", "/p"⟩]) (Except.ok []) "/p"
    ⟨"a", "venv", "/p"⟩ (by decide) rfl
